import Mathlib

/-!
Shallow embedding of the Nexus repository exporter (`src/script.py`).

The script walks a Nexus server: it lists repositories, paginates each
repository's component catalog, and downloads every asset of every
component to `BASE_OUTPUT_DIR/<repository>/<asset path>`, keeping a
per-repository statistics dict (`self.stats`).

The embedding renders the script's pure decision logic as Lean functions:

* the network is passed in as explicit request outcomes (`GetResult`,
  `ComponentsResult`, `ReposResult`), since the script only branches on
  the status code and body of each response;
* the local filesystem is an association list from paths to file sizes,
  which is all `os.path.exists` / `os.path.getsize` observe;
* the `self.stats` dict is an association list keyed by repository name,
  appending new keys at the end as a Python dict does;
* `asyncio` concurrency is modelled where a claim needs it: final counter
  values are order-independent (every mutation is a single read-modify-
  write between await points), so batches are folded sequentially, and
  the set of simultaneously in-flight transfers of a gathered page is
  modelled explicitly for the scheduling claim.
-/

namespace NexusExport

/-- A repository entry from the listing; the script reads only its name. -/
structure Repository where
  name : String
deriving Repr, DecidableEq

/-- An asset record from the components JSON: `downloadUrl`, relative
`path`, and the declared file size (the `"fileSize"` key may be absent,
hence `Option`). -/
structure Asset where
  downloadUrl : String
  path : String
  fileSize : Option Nat
deriving Repr, DecidableEq

/-- A component; the script reads only its `assets` list. -/
structure Component where
  assets : List Asset
deriving Repr, DecidableEq

/-- One page of the components listing: `items` plus the continuation
token (`None` when the key is absent, per `result.get`). -/
structure Page where
  items : List Component
  continuationToken : Option String
deriving Repr, DecidableEq

def NEXUS_URL : String := "http://localhost:8081"

def BASE_OUTPUT_DIR : String := "nexus_artifacts"

def MAX_CONCURRENT_DOWNLOADS : Nat := 10

/-- The per-repository record stored in `self.stats[repository_name]`. -/
structure RepoStats where
  downloaded_assets : Nat
  downloaded_size : Nat
  start_time : Nat
deriving Repr, DecidableEq

/-- The `self.stats` dict: an association list keyed by repository name.
A Python dict keeps insertion order, so a new key is appended at the end. -/
abbrev Stats := List (String × RepoStats)

def statsLookup (s : Stats) (repo : String) : Option RepoStats :=
  match s with
  | [] => none
  | (k, v) :: rest => if k = repo then some v else statsLookup rest repo

/-- Lines 83-88: `if repository_name not in self.stats: self.stats[...] =
{"downloaded_assets": 0, "downloaded_size": 0, "start_time": time.time()}`. -/
def ensureStats (s : Stats) (repo : String) (now : Nat) : Stats :=
  match statsLookup s repo with
  | some _ => s
  | none => s ++ [(repo, ⟨0, 0, now⟩)]

/-- In-place mutation of an existing entry of the stats dict. -/
def updateStats (s : Stats) (repo : String) (f : RepoStats → RepoStats) : Stats :=
  s.map (fun p => if p.1 = repo then (p.1, f p.2) else p)

/-- The `downloaded_assets` counter of a repository, 0 when the
repository has no stats entry yet. -/
def downloadedAssets (s : Stats) (repo : String) : Nat :=
  match statsLookup s repo with
  | some r => r.downloaded_assets
  | none => 0

/-- The `downloaded_size` counter of a repository, 0 when the repository
has no stats entry yet. -/
def downloadedBytes (s : Stats) (repo : String) : Nat :=
  match statsLookup s repo with
  | some r => r.downloaded_size
  | none => 0

/-- Local filesystem model: which paths hold a file and of what size;
all that `os.path.exists` and `os.path.getsize` observe. -/
abbrev FS := List (String × Nat)

def fsLookup (fs : FS) (p : String) : Option Nat :=
  match fs with
  | [] => none
  | (k, v) :: rest => if k = p then some v else fsLookup rest p

def fsWrite (fs : FS) (p : String) (n : Nat) : FS :=
  match fs with
  | [] => [(p, n)]
  | (k, v) :: rest => if k = p then (k, n) :: rest else (k, v) :: fsWrite rest p n

/-- `os.path.join(BASE_OUTPUT_DIR, repository_name, relative_path)`
(line 80), with `/` separators. -/
def fullPath (repo path : String) : String :=
  BASE_OUTPUT_DIR ++ "/" ++ repo ++ "/" ++ path

/-- `response.content.iter_chunked(8192)` over a fully delivered body of
`n` bytes: `n / 8192` full 8192-byte chunks followed by one shorter
chunk holding the remaining `n % 8192` bytes when there are any. -/
def iter_chunked (n : Nat) : List Nat :=
  if n % 8192 = 0 then List.replicate (n / 8192) 8192
  else List.replicate (n / 8192) 8192 ++ [n % 8192]

/-- What reading the body of a 200 response yields: either the whole body
of the given size, or a prefix of chunks followed by an I/O or network
exception raised while streaming. -/
inductive Body where
  | complete (size : Nat)
  | interrupted (delivered : List Nat) (msg : String)
deriving Repr, DecidableEq

/-- Outcome of `session.get(download_url)`: a response with a status code
and a body, or an exception raised by the request itself. -/
inductive GetResult where
  | resp (status : Nat) (body : Body)
  | netError (msg : String)
deriving Repr, DecidableEq

/-- Entries the script writes through `logging` (the `print` calls are
console narration and are not modelled). -/
inductive LogEntry where
  | infoDownloaded (repo path : String)
  | errorDownloadStatus (repo path : String) (status : Nat)
  | errorDownloadExc (repo path msg : String)
  | errorComponentsStatus (status : Nat) (body : String)
  | errorComponentsExc (msg : String)
  | errorReposStatus (status : Nat) (body : String)
  | errorReposExc (msg : String)
deriving Repr, DecidableEq

def LogEntry.isError : LogEntry → Bool
  | .infoDownloaded _ _ => false
  | _ => true

/-- Result of one `download_asset` call: the stats dict and filesystem
after the call, whether the call reached `session.get(download_url)`,
the log entries written, and the successive values taken by the
repository's `downloaded_size` counter as chunks were written. -/
structure DownloadOutcome where
  stats : Stats
  fs : FS
  issuedGet : Bool
  logs : List LogEntry
  byteTrace : List Nat
deriving Repr, DecidableEq

/-- Lines 100-103: write the chunks one by one, bumping `downloaded_size`
by `len(chunk)` after each write.  Returns the stats after all writes and
the value of the counter after each individual write. -/
def writeChunks (s : Stats) (repo : String) (chunks : List Nat) : Stats × List Nat :=
  match chunks with
  | [] => (s, [])
  | c :: rest =>
      let s1 := updateStats s repo (fun r => { r with downloaded_size := r.downloaded_size + c })
      let w := writeChunks s1 repo rest
      (w.1, downloadedBytes s1 repo :: w.2)

/-- Lines 91-94: the existing-file check — the call is skipped exactly
when a file exists at the destination path, the asset declares a
`fileSize`, and the local file's size equals it. -/
def skipExisting (fs : FS) (repo : String) (a : Asset) : Bool :=
  match fsLookup fs (fullPath repo a.path), a.fileSize with
  | some localSize, some declared => localSize == declared
  | _, _ => false

/-- `NexusExporter.download_asset` (lines 74-111).  The `now` argument is
`time.time()` at the stats-entry creation; `net` is what the GET to
`asset.downloadUrl` would return (unused when the skip check fires
before the request is issued).  A total function: every failure branch
is caught by the `except` on line 110 and only logged. -/
def download_asset (s : Stats) (fs : FS) (asset : Asset) (repo : String)
    (now : Nat) (net : GetResult) : DownloadOutcome :=
  let fp := fullPath repo asset.path
  let s1 := ensureStats s repo now
  if skipExisting fs repo asset then
    { stats := s1, fs := fs, issuedGet := false, logs := [], byteTrace := [] }
  else
    match net with
    | .resp status body =>
        if status = 200 then
          match body with
          | .complete size =>
              let w := writeChunks s1 repo (iter_chunked size)
              let s3 := updateStats w.1 repo
                (fun r => { r with downloaded_assets := r.downloaded_assets + 1 })
              { stats := s3, fs := fsWrite fs fp size, issuedGet := true,
                logs := [.infoDownloaded repo asset.path], byteTrace := w.2 }
          | .interrupted delivered msg =>
              let w := writeChunks s1 repo delivered
              { stats := w.1, fs := fsWrite fs fp delivered.sum, issuedGet := true,
                logs := [.errorDownloadExc repo asset.path msg], byteTrace := w.2 }
        else
          { stats := s1, fs := fs, issuedGet := true,
            logs := [.errorDownloadStatus repo asset.path status], byteTrace := [] }
    | .netError msg =>
        { stats := s1, fs := fs, issuedGet := true,
          logs := [.errorDownloadExc repo asset.path msg], byteTrace := [] }

/-- One unit of work for the scheduler: an asset together with what the
GET to its download URL would return. -/
structure AssetJob where
  asset : Asset
  net : GetResult
deriving Repr, DecidableEq

/-- The downloads of one gathered batch, folded sequentially.  In asyncio
every counter mutation is a single read-modify-write with no await point
inside it, so the final stats and filesystem are independent of the
interleaving and a sequential fold computes them faithfully. -/
def runBatch (s : Stats) (fs : FS) (repo : String) (now : Nat) :
    List AssetJob → Stats × FS × List LogEntry
  | [] => (s, fs, [])
  | j :: rest =>
      let o := download_asset s fs j.asset repo now j.net
      let b := runBatch o.stats o.fs repo now rest
      (b.1, b.2.1, o.logs ++ b.2.2)

/-- Outcome of the GET on the components endpoint: a response carrying a
status, the error text, and (when the status is 200) the parsed page, or
an exception raised by the request. -/
inductive ComponentsResult where
  | resp (status : Nat) (errorText : String) (page : Page)
  | netError (msg : String)
deriving Repr, DecidableEq

def emptyPage : Page := ⟨[], none⟩

/-- Truthiness of the continuation-token variable: Python treats both
`None` and the empty string as false. -/
def isTruthy : Option String → Bool
  | none => false
  | some t => t != ""

/-- Lines 56-58: the query parameters sent by `get_components`;
`continuationToken` is added only when the token variable is truthy. -/
def componentsParams (repo : String) (token : Option String) : List (String × String) :=
  let base := [("repository", repo)]
  match token with
  | some t => if t = "" then base else base ++ [("continuationToken", t)]
  | none => base

/-- `NexusExporter.get_components` (lines 53-72): the parameters it sends,
the page it returns and the log entries it writes.  It is a total
function — every failure is caught and turned into an empty page. -/
def get_components (repo : String) (token : Option String) (r : ComponentsResult) :
    List (String × String) × Page × List LogEntry :=
  (componentsParams repo token,
   match r with
   | .resp status text page =>
       if status = 200 then (page, [])
       else (emptyPage, [.errorComponentsStatus status text])
   | .netError msg => (emptyPage, [.errorComponentsExc msg]))

/-- The `while True` pagination loop of `process_repository` (lines
123-137), abstracted to the sequence of continuation-token variable
values it carries into successive requests: the server answers the k-th
request with the k-th page of `pages`.  Returns `none` when the loop
would request more pages than the list provides. -/
def requestTokens (tok : Option String) (pages : List Page) : Option (List (Option String)) :=
  match pages with
  | [] => none
  | p :: rest =>
      if isTruthy p.continuationToken then
        (requestTokens p.continuationToken rest).map (fun l => tok :: l)
      else some [tok]

/-- Lines 127-130: the download tasks built for one page — one per asset
of every item, in order. -/
def download_tasks (p : Page) : List Asset :=
  (p.items.map (fun c => c.assets)).flatten

/-- Line 133, `await asyncio.gather(*download_tasks)`: every task of the
page is started at once and each non-skipped task immediately awaits its
HTTP GET, so the number of transfers simultaneously in flight equals the
number of non-skipped tasks of the page.  Nothing in the script bounds
this number: `self.executor` (the only thing sized by
`MAX_CONCURRENT_DOWNLOADS`) is created on line 29 and never used. -/
def inFlightTransfers (fs : FS) (repo : String) (p : Page) : Nat :=
  ((download_tasks p).filter (fun a => !skipExisting fs repo a)).length

/-- Outcome of the GET on the repositories endpoint: a response carrying
a status, the response text, and (when the status is 200) the parsed
repository list, or an exception raised by the request. -/
inductive ReposResult where
  | resp (status : Nat) (text : String) (repos : List Repository)
  | netError (msg : String)
deriving Repr, DecidableEq

/-- `NexusExporter.get_repositories` (lines 39-51).  On a non-200 status
it logs the status and response text, raises
`Exception(f"Failed to get repositories: Status {status}")`, whose
message the outer `except` logs again before re-raising. -/
def get_repositories (r : ReposResult) : Except String (List Repository) × List LogEntry :=
  match r with
  | .resp status text repos =>
      if status = 200 then (.ok repos, [])
      else
        (.error ("Failed to get repositories: Status " ++ toString status),
         [.errorReposStatus status text,
          .errorReposExc ("Failed to get repositories: Status " ++ toString status)])
  | .netError msg => (.error msg, [.errorReposExc msg])

/-- The server-side script for one pagination step of one repository: the
components response, and the GET outcomes for the assets of the returned
page, in task order. -/
structure PageJob where
  fetch : ComponentsResult
  nets : List GetResult
deriving Repr, DecidableEq

/-- The body of the `while True` loop of `process_repository` iterated
over the supplied page scripts: fetch a page, gather its downloads, stop
when the returned token is falsy.  Also counts the asset tasks run. -/
def processPages (s : Stats) (fs : FS) (repo : String) (now : Nat) :
    List PageJob → Stats × FS × List LogEntry × Nat
  | [] => (s, fs, [], 0)
  | pj :: rest =>
      let fetched := get_components repo none pj.fetch
      let page := fetched.2.1
      let jobs := ((download_tasks page).zip pj.nets).map (fun x => AssetJob.mk x.1 x.2)
      let b := runBatch s fs repo now jobs
      if isTruthy page.continuationToken then
        let n := processPages b.1 b.2.1 repo now rest
        (n.1, n.2.1, fetched.2.2 ++ b.2.2 ++ n.2.2.1, jobs.length + n.2.2.2)
      else (b.1, b.2.1, fetched.2.2 ++ b.2.2, jobs.length)

/-- The repository summary printed on lines 144-147; `files` and `bytes`
are the two counters the printed figures are computed from. -/
structure RepoSummary where
  files : Nat
  bytes : Nat
deriving Repr, DecidableEq

/-- Result of `process_repository` for one repository. -/
structure RepoRunResult where
  stats : Stats
  fs : FS
  logs : List LogEntry
  summary : Option RepoSummary
  assetsProcessed : Nat
deriving Repr, DecidableEq

/-- `NexusExporter.process_repository` (lines 113-150): drain the pages,
then print the completion summary only `if repository_name in
self.stats` (line 140). -/
def process_repository (s : Stats) (fs : FS) (repo : String) (now : Nat)
    (pjobs : List PageJob) : RepoRunResult :=
  let p := processPages s fs repo now pjobs
  let summary :=
    match statsLookup p.1 repo with
    | some r => some ⟨r.downloaded_assets, r.downloaded_size⟩
    | none => none
  ⟨p.1, p.2.1, p.2.2.1, summary, p.2.2.2⟩

/-- Line 190: `Total repositories processed: {len(exporter.stats)}`. -/
def totalReposProcessed (s : Stats) : Nat := s.length

/-- Line 188: sum of `downloaded_assets` over all stats entries. -/
def total_files (s : Stats) : Nat := (s.map (fun p => p.2.downloaded_assets)).sum

/-- Line 189: sum of `downloaded_size` over all stats entries. -/
def total_size (s : Stats) : Nat := (s.map (fun p => p.2.downloaded_size)).sum

/-- A sequence of `download_asset` calls, possibly across repositories:
the only operations of the run that mutate the stats dict. -/
def runOps (s : Stats) (fs : FS) (now : Nat) :
    List (String × AssetJob) → Stats × FS
  | [] => (s, fs)
  | (repo, j) :: rest =>
      let o := download_asset s fs j.asset repo now j.net
      runOps o.stats o.fs now rest

/-- The successive counter values produced by adding each chunk length in
turn to a starting value: what a counter incremented chunk-by-chunk
shows, as opposed to a single increment after completion. -/
def traceFrom (b : Nat) : List Nat → List Nat
  | [] => []
  | c :: rest => (b + c) :: traceFrom (b + c) rest

deriving instance DecidableEq for Except

/-! ### Lemmas about the stats dict -/

theorem statsLookup_append (s t : Stats) (r : String) :
    statsLookup (s ++ t) r =
      match statsLookup s r with
      | some v => some v
      | none => statsLookup t r := by
  induction s with
  | nil => simp [statsLookup]
  | cons p rest ih =>
      by_cases h : p.1 = r <;> simp [statsLookup, h, ih]

theorem updateStats_cons_eq (k : String) (v : RepoStats) (rest : Stats) (repo : String)
    (f : RepoStats → RepoStats) (h : k = repo) :
    updateStats ((k, v) :: rest) repo f = (k, f v) :: updateStats rest repo f := by
  simp [updateStats, h]

theorem updateStats_cons_ne (k : String) (v : RepoStats) (rest : Stats) (repo : String)
    (f : RepoStats → RepoStats) (h : ¬k = repo) :
    updateStats ((k, v) :: rest) repo f = (k, v) :: updateStats rest repo f := by
  simp [updateStats, h]

theorem statsLookup_updateStats_self (s : Stats) (repo : String) (f : RepoStats → RepoStats) :
    statsLookup (updateStats s repo f) repo = (statsLookup s repo).map f := by
  induction s with
  | nil => simp [statsLookup, updateStats]
  | cons p rest ih =>
      obtain ⟨k, v⟩ := p
      by_cases h : k = repo
      · rw [updateStats_cons_eq _ _ _ _ _ h]
        simp [statsLookup, h]
      · rw [updateStats_cons_ne _ _ _ _ _ h]
        simp [statsLookup, h, ih]

theorem statsLookup_updateStats_ne (s : Stats) (repo : String) (f : RepoStats → RepoStats)
    (r : String) (h : r ≠ repo) :
    statsLookup (updateStats s repo f) r = statsLookup s r := by
  induction s with
  | nil => simp [statsLookup, updateStats]
  | cons p rest ih =>
      obtain ⟨k, v⟩ := p
      by_cases hp : k = repo
      · have hkr : ¬k = r := by rw [hp]; exact fun hc => h hc.symm
        rw [updateStats_cons_eq _ _ _ _ _ hp]
        simp [statsLookup, hkr, ih]
      · rw [updateStats_cons_ne _ _ _ _ _ hp]
        by_cases hr : k = r <;> simp [statsLookup, hr, ih]

theorem updateStats_of_none (s : Stats) (repo : String) (f : RepoStats → RepoStats)
    (h : statsLookup s repo = none) : updateStats s repo f = s := by
  induction s with
  | nil => simp [updateStats]
  | cons p rest ih =>
      obtain ⟨k, v⟩ := p
      rw [statsLookup] at h
      by_cases hp : k = repo
      · simp [hp] at h
      · simp [hp] at h
        rw [updateStats_cons_ne _ _ _ _ _ hp, ih h]

theorem statsLookup_ensureStats_self (s : Stats) (repo : String) (now : Nat) :
    statsLookup (ensureStats s repo now) repo =
      some ((statsLookup s repo).getD ⟨0, 0, now⟩) := by
  unfold ensureStats
  cases h : statsLookup s repo with
  | some v => simp [h]
  | none => rw [statsLookup_append, h]; simp [statsLookup]

theorem statsLookup_ensureStats_ne (s : Stats) (repo : String) (now : Nat)
    (r : String) (h : r ≠ repo) :
    statsLookup (ensureStats s repo now) r = statsLookup s r := by
  unfold ensureStats
  cases hs : statsLookup s repo with
  | some v => rfl
  | none =>
      rw [statsLookup_append]
      cases hr : statsLookup s r with
      | some v => rfl
      | none => simp [statsLookup, Ne.symm h]

theorem downloadedAssets_ensureStats (s : Stats) (repo : String) (now : Nat) (r : String) :
    downloadedAssets (ensureStats s repo now) r = downloadedAssets s r := by
  by_cases h : r = repo
  · subst h
    unfold downloadedAssets
    rw [statsLookup_ensureStats_self]
    cases hs : statsLookup s r <;> simp [Option.getD]
  · unfold downloadedAssets
    rw [statsLookup_ensureStats_ne s repo now r h]

theorem downloadedBytes_ensureStats (s : Stats) (repo : String) (now : Nat) (r : String) :
    downloadedBytes (ensureStats s repo now) r = downloadedBytes s r := by
  by_cases h : r = repo
  · subst h
    unfold downloadedBytes
    rw [statsLookup_ensureStats_self]
    cases hs : statsLookup s r <;> simp [Option.getD]
  · unfold downloadedBytes
    rw [statsLookup_ensureStats_ne s repo now r h]

theorem statsLookup_eq_none_iff (s : Stats) (r : String) :
    statsLookup s r = none ↔ r ∉ s.map Prod.fst := by
  induction s with
  | nil => simp [statsLookup]
  | cons p rest ih =>
      obtain ⟨k, v⟩ := p
      by_cases h : k = r
      · simp [statsLookup, h]
      · simp [statsLookup, h, ih, Ne.symm h]

theorem updateStats_keys (s : Stats) (repo : String) (f : RepoStats → RepoStats) :
    (updateStats s repo f).map Prod.fst = s.map Prod.fst := by
  induction s with
  | nil => rfl
  | cons p rest ih =>
      by_cases h : p.1 = repo <;> simp [updateStats, h] at ih ⊢ <;> exact ih

/-! ### Lemmas about `iter_chunked` -/

theorem iter_chunked_sum (n : Nat) : (iter_chunked n).sum = n := by
  unfold iter_chunked
  by_cases h : n % 8192 = 0 <;>
    simp [h, List.sum_replicate, smul_eq_mul] <;> omega

theorem iter_chunked_mem (n c : Nat) (h : c ∈ iter_chunked n) : 0 < c ∧ c ≤ 8192 := by
  unfold iter_chunked at h
  by_cases hm : n % 8192 = 0
  · simp [hm] at h
    omega
  · simp [hm] at h
    rcases h with h | h
    · omega
    · subst h
      constructor
      · omega
      · exact Nat.le_of_lt (Nat.mod_lt n (by omega))

theorem iter_chunked_dropLast (n c : Nat) (h : c ∈ (iter_chunked n).dropLast) : c = 8192 := by
  unfold iter_chunked at h
  by_cases hm : n % 8192 = 0
  · simp [hm] at h
    exact h.2
  · simp [hm, List.dropLast_concat] at h
    exact h.2

/-! ### Lemmas about `writeChunks` -/

theorem writeChunks_lookup_ne (s : Stats) (repo : String) (chunks : List Nat)
    (r : String) (h : r ≠ repo) :
    statsLookup (writeChunks s repo chunks).1 r = statsLookup s r := by
  induction chunks generalizing s with
  | nil => rfl
  | cons c rest ih =>
      simp only [writeChunks]
      rw [ih, statsLookup_updateStats_ne _ _ _ _ h]

theorem writeChunks_lookup_self (s : Stats) (repo : String) (chunks : List Nat)
    (e : RepoStats) (h : statsLookup s repo = some e) :
    statsLookup (writeChunks s repo chunks).1 repo =
      some { e with downloaded_size := e.downloaded_size + chunks.sum } := by
  induction chunks generalizing s e with
  | nil => simpa [writeChunks] using h
  | cons c rest ih =>
      simp only [writeChunks]
      rw [ih _ { e with downloaded_size := e.downloaded_size + c }
        (by rw [statsLookup_updateStats_self, h]; rfl)]
      simp [Nat.add_assoc]

theorem writeChunks_lookup_none (s : Stats) (repo : String) (chunks : List Nat)
    (h : statsLookup s repo = none) : (writeChunks s repo chunks).1 = s := by
  induction chunks generalizing s with
  | nil => rfl
  | cons c rest ih =>
      simp only [writeChunks]
      rw [updateStats_of_none _ _ _ h, ih _ h]

theorem writeChunks_trace (s : Stats) (repo : String) (chunks : List Nat)
    (e : RepoStats) (h : statsLookup s repo = some e) :
    (writeChunks s repo chunks).2 = traceFrom e.downloaded_size chunks := by
  induction chunks generalizing s e with
  | nil => rfl
  | cons c rest ih =>
      have h1 : statsLookup
          (updateStats s repo (fun r => { r with downloaded_size := r.downloaded_size + c })) repo =
          some { e with downloaded_size := e.downloaded_size + c } := by
        rw [statsLookup_updateStats_self, h]; rfl
      simp only [writeChunks, traceFrom]
      rw [ih _ _ h1]
      unfold downloadedBytes
      rw [h1]

/-! ### Case lemmas for `download_asset` -/

theorem skipExisting_iff (fs : FS) (repo : String) (a : Asset) :
    skipExisting fs repo a = true ↔
      ∃ sz, fsLookup fs (fullPath repo a.path) = some sz ∧ a.fileSize = some sz := by
  unfold skipExisting
  cases hf : fsLookup fs (fullPath repo a.path) with
  | none => simp
  | some l =>
      cases hz : a.fileSize with
      | none => simp
      | some d =>
          simp only [beq_iff_eq, Option.some.injEq]
          constructor
          · intro h
            exact ⟨l, rfl, h.symm⟩
          · rintro ⟨sz, h1, h2⟩
            omega

theorem download_asset_skip (s : Stats) (fs : FS) (a : Asset) (repo : String) (now : Nat)
    (net : GetResult) (h : skipExisting fs repo a = true) :
    download_asset s fs a repo now net = ⟨ensureStats s repo now, fs, false, [], []⟩ := by
  simp [download_asset, h]

theorem download_asset_badStatus (s : Stats) (fs : FS) (a : Asset) (repo : String) (now : Nat)
    (status : Nat) (body : Body) (h : skipExisting fs repo a = false) (h2 : status ≠ 200) :
    download_asset s fs a repo now (.resp status body) =
      ⟨ensureStats s repo now, fs, true, [.errorDownloadStatus repo a.path status], []⟩ := by
  simp [download_asset, h, h2]

theorem download_asset_netError (s : Stats) (fs : FS) (a : Asset) (repo : String) (now : Nat)
    (msg : String) (h : skipExisting fs repo a = false) :
    download_asset s fs a repo now (.netError msg) =
      ⟨ensureStats s repo now, fs, true, [.errorDownloadExc repo a.path msg], []⟩ := by
  simp [download_asset, h]

theorem download_asset_ok (s : Stats) (fs : FS) (a : Asset) (repo : String) (now : Nat)
    (size : Nat) (h : skipExisting fs repo a = false) :
    download_asset s fs a repo now (.resp 200 (.complete size)) =
      ⟨updateStats (writeChunks (ensureStats s repo now) repo (iter_chunked size)).1 repo
         (fun r => { r with downloaded_assets := r.downloaded_assets + 1 }),
       fsWrite fs (fullPath repo a.path) size, true, [.infoDownloaded repo a.path],
       (writeChunks (ensureStats s repo now) repo (iter_chunked size)).2⟩ := by
  simp [download_asset, h]

theorem download_asset_interrupted (s : Stats) (fs : FS) (a : Asset) (repo : String)
    (now : Nat) (delivered : List Nat) (msg : String) (h : skipExisting fs repo a = false) :
    download_asset s fs a repo now (.resp 200 (.interrupted delivered msg)) =
      ⟨(writeChunks (ensureStats s repo now) repo delivered).1,
       fsWrite fs (fullPath repo a.path) delivered.sum, true,
       [.errorDownloadExc repo a.path msg],
       (writeChunks (ensureStats s repo now) repo delivered).2⟩ := by
  simp [download_asset, h]

/-- Every branch of `download_asset` reports whether `session.get` was
reached: true in all non-skip branches, false in the skip branch. -/
theorem download_asset_issuedGet (s : Stats) (fs : FS) (a : Asset) (repo : String)
    (now : Nat) (net : GetResult) :
    (download_asset s fs a repo now net).issuedGet = !skipExisting fs repo a := by
  by_cases h : skipExisting fs repo a = true
  · rw [download_asset_skip _ _ _ _ _ _ h, h]
    rfl
  · have h' : skipExisting fs repo a = false := by simpa using h
    rw [h']
    cases net with
    | resp status body =>
        by_cases hs : status = 200
        · subst hs
          cases body with
          | complete size => rw [download_asset_ok _ _ _ _ _ _ h']; rfl
          | interrupted d m => rw [download_asset_interrupted _ _ _ _ _ _ _ h']; rfl
        · rw [download_asset_badStatus _ _ _ _ _ _ _ h' hs]; rfl
    | netError m => rw [download_asset_netError _ _ _ _ _ _ h']; rfl

/-- C2: `download_asset` skips an asset — issues no network GET,
increments neither counter, and writes no log — if and only if a file
already exists at the destination path AND the asset declares a
`fileSize` AND the local file's size equals it exactly.  Concretely:
with `fileSize = 1000` and a local file of 999 bytes it re-downloads and
overwrites (the local file ends at 1000 bytes); with a local file of
exactly 1000 bytes it skips; with `fileSize` absent it re-downloads even
though the file exists. -/
theorem C2_skip_policy :
    (∀ (s : Stats) (fs : FS) (a : Asset) (repo : String) (now : Nat) (net : GetResult),
      ((download_asset s fs a repo now net).issuedGet = false ↔
        ∃ sz, fsLookup fs (fullPath repo a.path) = some sz ∧ a.fileSize = some sz)
      ∧ ((download_asset s fs a repo now net).issuedGet = false →
          downloadedAssets (download_asset s fs a repo now net).stats repo
              = downloadedAssets s repo
          ∧ downloadedBytes (download_asset s fs a repo now net).stats repo
              = downloadedBytes s repo
          ∧ (download_asset s fs a repo now net).logs = []))
    ∧ ((download_asset [] [(fullPath "r" "a.jar", 999)] (Asset.mk "u" "a.jar" (some 1000))
          "r" 0 (.resp 200 (.complete 1000))).issuedGet = true
      ∧ fsLookup (download_asset [] [(fullPath "r" "a.jar", 999)]
          (Asset.mk "u" "a.jar" (some 1000)) "r" 0 (.resp 200 (.complete 1000))).fs
          (fullPath "r" "a.jar") = some 1000)
    ∧ (download_asset [] [(fullPath "r" "a.jar", 1000)] (Asset.mk "u" "a.jar" (some 1000))
        "r" 0 (.resp 200 (.complete 1000))).issuedGet = false
    ∧ (download_asset [] [(fullPath "r" "a.jar", 1000)] (Asset.mk "u" "a.jar" none)
        "r" 0 (.resp 200 (.complete 1000))).issuedGet = true := by
  refine ⟨?_, ⟨by decide, by decide⟩, by decide, by decide⟩
  intro s fs a repo now net
  rw [download_asset_issuedGet]
  constructor
  · rw [show ((!skipExisting fs repo a) = false ↔ skipExisting fs repo a = true) from by simp]
    exact skipExisting_iff fs repo a
  · intro hskip
    have h : skipExisting fs repo a = true := by simpa using hskip
    rw [download_asset_skip _ _ _ _ _ _ h]
    exact ⟨downloadedAssets_ensureStats s repo now repo,
           downloadedBytes_ensureStats s repo now repo, rfl⟩

/-- C5: `get_components` never raises: it is a total function, and for
every repository name and token, on any non-success status or a request
exception it returns the empty page (`items = []`, `continuationToken =
null`) and logs one error; on a 200 it returns the parsed page with no
log.  The empty page's token is falsy, so pagination for that repository
silently truncates there instead of aborting the run. -/
theorem C5_components_never_raise :
    (∀ (repo : String) (token : Option String) (status : Nat) (text : String) (page : Page),
        status ≠ 200 →
        (get_components repo token (.resp status text page)).2 =
          (emptyPage, [.errorComponentsStatus status text]))
    ∧ (∀ (repo : String) (token : Option String) (msg : String),
        (get_components repo token (.netError msg)).2 =
          (emptyPage, [.errorComponentsExc msg]))
    ∧ (∀ (repo : String) (token : Option String) (text : String) (page : Page),
        (get_components repo token (.resp 200 text page)).2 = (page, []))
    ∧ isTruthy emptyPage.continuationToken = false := by
  refine ⟨?_, ?_, ?_, by decide⟩
  · intro repo token status text page h
    simp [get_components, h]
  · intro repo token msg
    simp [get_components]
  · intro repo token text page
    simp [get_components]

/-- C10 (implicit): the pagination loop terminates on any falsy
continuation token — a page whose token is the empty string ends
pagination exactly as a null token does — and when the token to send is
falsy (the initial call, or an empty-string token) the components
request omits the `continuationToken` query parameter entirely. -/
theorem C10_falsy_token_handling :
    (∀ (tok : Option String) (items : List Component) (rest : List Page),
        requestTokens tok (⟨items, some ""⟩ :: rest) = some [tok]
      ∧ requestTokens tok (⟨items, none⟩ :: rest) = some [tok])
    ∧ isTruthy none = false
    ∧ isTruthy (some "") = false
    ∧ (∀ repo : String, componentsParams repo none = [("repository", repo)])
    ∧ (∀ repo : String, componentsParams repo (some "") = [("repository", repo)])
    ∧ (∀ (repo t : String), t ≠ "" →
        componentsParams repo (some t) = [("repository", repo), ("continuationToken", t)])
    ∧ (∀ (repo : String) (token : Option String) (r : ComponentsResult),
        (get_components repo token r).1 = componentsParams repo token) := by
  refine ⟨?_, rfl, by decide, fun repo => rfl, ?_, ?_, fun repo token r => rfl⟩
  · intro tok items rest
    constructor <;> simp [requestTokens, isTruthy]
  · intro repo
    simp [componentsParams]
  · intro repo t h
    simp [componentsParams, h]

/-- The pagination loop driven by a page sequence whose first `N` tokens
are truthy and whose last token is falsy: the loop's requests carry
`None` first, then each previous page's token. -/
theorem requestTokens_run (tok : Option String) (first : List Page) (last : Page)
    (h1 : ∀ p ∈ first, isTruthy p.continuationToken = true)
    (h2 : isTruthy last.continuationToken = false) :
    requestTokens tok (first ++ [last]) =
      some (tok :: first.map (fun p => p.continuationToken)) := by
  induction first generalizing tok with
  | nil => simp [requestTokens, h2]
  | cons p rest ih =>
      have hp := h1 p (List.mem_cons_self p rest)
      simp only [List.cons_append, requestTokens, hp, if_true, List.append_eq]
      rw [ih p.continuationToken (fun q hq => h1 q (List.mem_cons_of_mem p hq))]
      rfl

/-- C6 counterexample: the first page's token is non-null (the empty
string) and the second page's token is null, so the claim as stated
(N = 1) predicts 2 requests; the loop makes only 1, because `if not
continuation_token` treats the empty string as termination. -/
theorem C6_counterexample_empty_token :
    some "" ≠ (none : Option String)
    ∧ (Page.mk [] none).continuationToken = none
    ∧ (requestTokens none [Page.mk [] (some ""), Page.mk [] none]).map List.length = some 1 := by
  exact ⟨by decide, rfl, by decide⟩

/-- C6 (amended): for pages 1..N carrying a truthy (non-null, non-empty)
continuation token and page N+1 carrying a falsy one, the loop requests
exactly N+1 pages: the first request with no token, each subsequent one
with the previous page's token, and then stops. -/
theorem C6_pagination_visits (first : List Page) (last : Page)
    (h1 : ∀ p ∈ first, isTruthy p.continuationToken = true)
    (h2 : isTruthy last.continuationToken = false) :
    requestTokens none (first ++ [last]) =
      some (none :: first.map (fun p => p.continuationToken))
    ∧ (requestTokens none (first ++ [last])).map List.length = some (first.length + 1) := by
  have h := requestTokens_run none first last h1 h2
  refine ⟨h, ?_⟩
  rw [h]
  simp

/-- Witness for C6 at a concrete two-page run: one truthy token "t2",
then a null token — exactly 2 requests, the second carrying "t2". -/
theorem C6_pagination_visits_witness :
    isTruthy (Page.mk [] (some "t2")).continuationToken = true
    ∧ isTruthy (Page.mk [] none).continuationToken = false
    ∧ (requestTokens none ([Page.mk [] (some "t2")] ++ [Page.mk [] none]) =
        some (none :: [Page.mk [] (some "t2")].map (fun p => p.continuationToken))
      ∧ (requestTokens none ([Page.mk [] (some "t2")] ++ [Page.mk [] none])).map List.length =
          some ([Page.mk [] (some "t2")].length + 1)) :=
  ⟨by decide, by decide,
   C6_pagination_visits [Page.mk [] (some "t2")] (Page.mk [] none)
     (by intro p hp; simp at hp; subst hp; decide) (by decide)⟩

/-- C1 counterexample: a page holding 11 assets, none of which the empty
filesystem lets the skip check bypass, puts 11 transfers in flight at
once — above `MAX_CONCURRENT_DOWNLOADS = 10`.  `asyncio.gather` starts
every task of the page and nothing in the script limits them: the
`ThreadPoolExecutor` sized by `MAX_CONCURRENT_DOWNLOADS` is never
used. -/
theorem C1_counterexample_eleven_assets :
    ¬ inFlightTransfers [] "r"
        (Page.mk [Component.mk (List.replicate 11 (Asset.mk "u" "p" none))] none)
      ≤ MAX_CONCURRENT_DOWNLOADS := by
  decide

/-- Helper: a filter whose predicate holds at `a` keeps all of
`List.replicate n a`. -/
theorem length_filter_replicate (f : Asset → Bool) (a : Asset) (h : f a = true) (n : Nat) :
    ((List.replicate n a).filter f).length = n := by
  induction n with
  | zero => rfl
  | succ m ih => simp [List.replicate_succ, List.filter_cons, h, ih]

/-- C1 (amended): the scheduler applies no concurrency ceiling.  Every
non-skipped task of a gathered page is in flight at once: the in-flight
count of an n-asset page over a fresh filesystem is exactly n, for every
n, and in particular exceeds `MAX_CONCURRENT_DOWNLOADS` at n = 11.
`download_asset` reaches its GET exactly when the skip check fails, so
the gathered batch is bounded only by the page's asset count. -/
theorem C1_no_concurrency_ceiling :
    (∀ (s : Stats) (fs : FS) (a : Asset) (repo : String) (now : Nat) (net : GetResult),
        (download_asset s fs a repo now net).issuedGet = !skipExisting fs repo a)
    ∧ (∀ n : Nat, inFlightTransfers [] "r"
        (Page.mk [Component.mk (List.replicate n (Asset.mk "u" "p" none))] none) = n)
    ∧ MAX_CONCURRENT_DOWNLOADS < inFlightTransfers [] "r"
        (Page.mk [Component.mk (List.replicate 11 (Asset.mk "u" "p" none))] none) := by
  refine ⟨download_asset_issuedGet, ?_, by decide⟩
  intro n
  unfold inFlightTransfers download_tasks
  simp only [List.map_cons, List.map_nil, List.flatten_cons, List.flatten_nil,
    List.append_nil]
  exact length_filter_replicate _ _ (by decide) n

/-- C4 counterexample: two non-success responses with the same status
but different bodies produce the same raised error value, so the raised
error cannot carry the response body — the exception on line 48 is built
from the status alone ("Failed to get repositories: Status 500"); the
body reaches only the error log. -/
theorem C4_counterexample_body_not_carried :
    (get_repositories (.resp 500 "bodyA" [])).1 = (get_repositories (.resp 500 "bodyB" [])).1
    ∧ "bodyA" ≠ "bodyB"
    ∧ (get_repositories (.resp 500 "bodyA" [])).1 =
        .error "Failed to get repositories: Status 500" := by
  exact ⟨by decide, by decide, by decide⟩

/-- C4 (amended): `get_repositories` fails exactly when the response
status is non-success; the raised error carries the status code (its
message is "Failed to get repositories: Status {status}"); the response
body is written to the error log together with the status, but does not
travel in the raised error; on a 200 it returns the parsed repository
list. -/
theorem C4_list_repositories_errors :
    (∀ (text : String) (repos : List Repository),
        (get_repositories (.resp 200 text repos)).1 = .ok repos
        ∧ (get_repositories (.resp 200 text repos)).2 = [])
    ∧ (∀ (status : Nat) (text : String) (repos : List Repository), status ≠ 200 →
        (get_repositories (.resp status text repos)).1 =
          .error ("Failed to get repositories: Status " ++ toString status)
        ∧ (get_repositories (.resp status text repos)).2 =
          [.errorReposStatus status text,
           .errorReposExc ("Failed to get repositories: Status " ++ toString status)])
    ∧ (∀ (status : Nat) (text : String) (repos : List Repository),
        (∃ l, (get_repositories (.resp status text repos)).1 = .ok l) ↔ status = 200) := by
  refine ⟨?_, ?_, ?_⟩
  · intro text repos
    exact ⟨rfl, rfl⟩
  · intro status text repos h
    constructor <;> simp [get_repositories, h]
  · intro status text repos
    by_cases hs : status = 200 <;> simp [get_repositories, hs]

/-- C3 counterexample: a download that fails with an I/O/network
exception raised mid-stream (status 200, one 8192-byte chunk delivered,
then the stream breaks) is logged as an error and increments no asset
counter, but the bytes of the already-written chunk stay counted:
`downloaded_size` ends at 8192, not 0 — the failed attempt did touch the
`downloadedBytes` counter. -/
theorem C3_counterexample_midstream_bytes :
    downloadedBytes (download_asset [] [] (Asset.mk "u" "p" none) "r" 0
        (.resp 200 (.interrupted [8192] "reset"))).stats "r" = 8192
    ∧ downloadedAssets (download_asset [] [] (Asset.mk "u" "p" none) "r" 0
        (.resp 200 (.interrupted [8192] "reset"))).stats "r" = 0
    ∧ (download_asset [] [] (Asset.mk "u" "p" none) "r" 0
        (.resp 200 (.interrupted [8192] "reset"))).logs =
        [.errorDownloadExc "r" "p" "reset"] := by
  exact ⟨by decide, by decide, by decide⟩

/-- C3 (amended): every failed download is logged and swallowed — the
function is total and returns the error in its log instead of raising —
and `downloadedAssets` is untouched by any failed attempt.
`downloadedBytes` is untouched when the failure is a non-success status
or a request exception, but chunks already written before a mid-stream
exception remain counted.  Sibling downloads are unaffected: in a
5-asset batch where asset #3 fails with a non-success status, the other
four complete, `downloadedAssets` ends at 4, and exactly one error is
logged. -/
theorem C3_failure_isolation :
    (∀ (s : Stats) (fs : FS) (a : Asset) (repo : String) (now : Nat)
        (status : Nat) (body : Body), skipExisting fs repo a = false → status ≠ 200 →
        download_asset s fs a repo now (.resp status body) =
          ⟨ensureStats s repo now, fs, true, [.errorDownloadStatus repo a.path status], []⟩
        ∧ downloadedAssets (download_asset s fs a repo now (.resp status body)).stats repo
            = downloadedAssets s repo
        ∧ downloadedBytes (download_asset s fs a repo now (.resp status body)).stats repo
            = downloadedBytes s repo)
    ∧ (∀ (s : Stats) (fs : FS) (a : Asset) (repo : String) (now : Nat) (msg : String),
        skipExisting fs repo a = false →
        download_asset s fs a repo now (.netError msg) =
          ⟨ensureStats s repo now, fs, true, [.errorDownloadExc repo a.path msg], []⟩
        ∧ downloadedAssets (download_asset s fs a repo now (.netError msg)).stats repo
            = downloadedAssets s repo
        ∧ downloadedBytes (download_asset s fs a repo now (.netError msg)).stats repo
            = downloadedBytes s repo)
    ∧ (∀ (s : Stats) (fs : FS) (a : Asset) (repo : String) (now : Nat)
        (delivered : List Nat) (msg : String), skipExisting fs repo a = false →
        downloadedAssets (download_asset s fs a repo now
            (.resp 200 (.interrupted delivered msg))).stats repo = downloadedAssets s repo
        ∧ downloadedBytes (download_asset s fs a repo now
            (.resp 200 (.interrupted delivered msg))).stats repo
            = downloadedBytes s repo + delivered.sum
        ∧ (download_asset s fs a repo now (.resp 200 (.interrupted delivered msg))).logs =
            [.errorDownloadExc repo a.path msg])
    ∧ (downloadedAssets (runBatch [] [] "r" 0
          [⟨Asset.mk "u" "p1" none, .resp 200 (.complete 100)⟩,
           ⟨Asset.mk "u" "p2" none, .resp 200 (.complete 100)⟩,
           ⟨Asset.mk "u" "p3" none, .resp 500 (.complete 100)⟩,
           ⟨Asset.mk "u" "p4" none, .resp 200 (.complete 100)⟩,
           ⟨Asset.mk "u" "p5" none, .resp 200 (.complete 100)⟩]).1 "r" = 4
      ∧ ((runBatch [] [] "r" 0
          [⟨Asset.mk "u" "p1" none, .resp 200 (.complete 100)⟩,
           ⟨Asset.mk "u" "p2" none, .resp 200 (.complete 100)⟩,
           ⟨Asset.mk "u" "p3" none, .resp 500 (.complete 100)⟩,
           ⟨Asset.mk "u" "p4" none, .resp 200 (.complete 100)⟩,
           ⟨Asset.mk "u" "p5" none, .resp 200 (.complete 100)⟩]).2.2.filter
            LogEntry.isError).length = 1) := by
  refine ⟨?_, ?_, ?_, by decide, by decide⟩
  · intro s fs a repo now status body h h2
    rw [download_asset_badStatus _ _ _ _ _ _ _ h h2]
    exact ⟨rfl, downloadedAssets_ensureStats s repo now repo,
           downloadedBytes_ensureStats s repo now repo⟩
  · intro s fs a repo now msg h
    rw [download_asset_netError _ _ _ _ _ _ h]
    exact ⟨rfl, downloadedAssets_ensureStats s repo now repo,
           downloadedBytes_ensureStats s repo now repo⟩
  · intro s fs a repo now delivered msg h
    rw [download_asset_interrupted _ _ _ _ _ _ _ h]
    have hself := statsLookup_ensureStats_self s repo now
    refine ⟨?_, ?_, rfl⟩
    · show downloadedAssets (writeChunks (ensureStats s repo now) repo delivered).1 repo
          = downloadedAssets s repo
      unfold downloadedAssets
      rw [writeChunks_lookup_self _ _ _ _ hself]
      cases hs : statsLookup s repo <;> simp [hs, Option.getD]
    · show downloadedBytes (writeChunks (ensureStats s repo now) repo delivered).1 repo
          = downloadedBytes s repo + delivered.sum
      unfold downloadedBytes
      rw [writeChunks_lookup_self _ _ _ _ hself]
      cases hs : statsLookup s repo <;> simp [hs, Option.getD]

/-- C7: on a successful download the body is streamed in fixed-size
8 KiB chunks — every chunk is at most 8192 bytes, all but the last are
exactly 8192, and they sum to the body size — the repository's
`downloaded_size` counter is incremented by each chunk's length as that
chunk is written (its trace is the strict running totals, not a single
final jump), and `downloaded_assets` is incremented by exactly one after
the full file is written.  For a repository whose 3 assets of 100, 200
and 300 bytes all download successfully, `downloadedAssets = 3` and
`downloadedBytes = 600` after the batch completes. -/
theorem C7_streaming_and_counters :
    (∀ n : Nat, (∀ c ∈ iter_chunked n, 0 < c ∧ c ≤ 8192)
      ∧ (∀ c ∈ (iter_chunked n).dropLast, c = 8192)
      ∧ (iter_chunked n).sum = n)
    ∧ (∀ (s : Stats) (fs : FS) (a : Asset) (repo : String) (now : Nat) (size : Nat),
        skipExisting fs repo a = false →
        (download_asset s fs a repo now (.resp 200 (.complete size))).byteTrace
            = traceFrom (downloadedBytes s repo) (iter_chunked size)
        ∧ downloadedBytes
            (download_asset s fs a repo now (.resp 200 (.complete size))).stats repo
            = downloadedBytes s repo + size
        ∧ downloadedAssets
            (download_asset s fs a repo now (.resp 200 (.complete size))).stats repo
            = downloadedAssets s repo + 1
        ∧ (download_asset s fs a repo now (.resp 200 (.complete size))).logs
            = [.infoDownloaded repo a.path])
    ∧ (downloadedAssets (runBatch [] [] "r" 0
          [⟨Asset.mk "u" "p1" none, .resp 200 (.complete 100)⟩,
           ⟨Asset.mk "u" "p2" none, .resp 200 (.complete 200)⟩,
           ⟨Asset.mk "u" "p3" none, .resp 200 (.complete 300)⟩]).1 "r" = 3
      ∧ downloadedBytes (runBatch [] [] "r" 0
          [⟨Asset.mk "u" "p1" none, .resp 200 (.complete 100)⟩,
           ⟨Asset.mk "u" "p2" none, .resp 200 (.complete 200)⟩,
           ⟨Asset.mk "u" "p3" none, .resp 200 (.complete 300)⟩]).1 "r" = 600) := by
  refine ⟨fun n => ⟨iter_chunked_mem n, iter_chunked_dropLast n, iter_chunked_sum n⟩,
          ?_, by decide, by decide⟩
  intro s fs a repo now size h
  rw [download_asset_ok _ _ _ _ _ _ h]
  have hself := statsLookup_ensureStats_self s repo now
  refine ⟨?_, ?_, ?_, rfl⟩
  · show (writeChunks (ensureStats s repo now) repo (iter_chunked size)).2 = _
    rw [writeChunks_trace _ _ _ _ hself]
    congr 1
    cases hs : statsLookup s repo <;> simp [downloadedBytes, hs, Option.getD]
  · show downloadedBytes (updateStats
        (writeChunks (ensureStats s repo now) repo (iter_chunked size)).1 repo
        (fun r => { r with downloaded_assets := r.downloaded_assets + 1 })) repo = _
    unfold downloadedBytes
    rw [statsLookup_updateStats_self, writeChunks_lookup_self _ _ _ _ hself]
    cases hs : statsLookup s repo <;> simp [hs, Option.getD, iter_chunked_sum]
  · show downloadedAssets (updateStats
        (writeChunks (ensureStats s repo now) repo (iter_chunked size)).1 repo
        (fun r => { r with downloaded_assets := r.downloaded_assets + 1 })) repo = _
    unfold downloadedAssets
    rw [statsLookup_updateStats_self, writeChunks_lookup_self _ _ _ _ hself]
    cases hs : statsLookup s repo <;> simp [hs, Option.getD]

/-- `download_asset` always leaves a stats entry for its own repository
(it creates one before the skip check). -/
theorem download_asset_lookup_self (s : Stats) (fs : FS) (a : Asset) (repo : String)
    (now : Nat) (net : GetResult) :
    (statsLookup (download_asset s fs a repo now net).stats repo).isSome = true := by
  have hself := statsLookup_ensureStats_self s repo now
  by_cases h : skipExisting fs repo a = true
  · rw [download_asset_skip _ _ _ _ _ _ h]
    simp [hself]
  · have h' : skipExisting fs repo a = false := by simpa using h
    cases net with
    | resp status body =>
        by_cases hs : status = 200
        · subst hs
          cases body with
          | complete size =>
              rw [download_asset_ok _ _ _ _ _ _ h']
              simp [statsLookup_updateStats_self, writeChunks_lookup_self _ _ _ _ hself]
          | interrupted d m =>
              rw [download_asset_interrupted _ _ _ _ _ _ _ h']
              simp [writeChunks_lookup_self _ _ _ _ hself]
        · rw [download_asset_badStatus _ _ _ _ _ _ _ h' hs]
          simp [hself]
    | netError m =>
        rw [download_asset_netError _ _ _ _ _ _ h']
        simp [hself]

/-- For a repository other than its own, `download_asset` leaves the
stats entry untouched. -/
theorem download_asset_lookup_ne (s : Stats) (fs : FS) (a : Asset) (repo : String)
    (now : Nat) (net : GetResult) (r : String) (hr : r ≠ repo) :
    statsLookup (download_asset s fs a repo now net).stats r = statsLookup s r := by
  have hne := statsLookup_ensureStats_ne s repo now r hr
  by_cases h : skipExisting fs repo a = true
  · rw [download_asset_skip _ _ _ _ _ _ h]
    exact hne
  · have h' : skipExisting fs repo a = false := by simpa using h
    cases net with
    | resp status body =>
        by_cases hs : status = 200
        · subst hs
          cases body with
          | complete size =>
              rw [download_asset_ok _ _ _ _ _ _ h']
              exact (statsLookup_updateStats_ne
                  (writeChunks (ensureStats s repo now) repo (iter_chunked size)).1 repo
                  (fun r => { r with downloaded_assets := r.downloaded_assets + 1 }) r hr).trans
                ((writeChunks_lookup_ne (ensureStats s repo now) repo (iter_chunked size)
                  r hr).trans hne)
          | interrupted d m =>
              rw [download_asset_interrupted _ _ _ _ _ _ _ h']
              exact (writeChunks_lookup_ne _ _ _ _ hr).trans hne
        · rw [download_asset_badStatus _ _ _ _ _ _ _ h' hs]
          exact hne
    | netError m =>
        rw [download_asset_netError _ _ _ _ _ _ h']
        exact hne

/-- A stats entry, once present, survives any `download_asset` call. -/
theorem download_asset_preserves_isSome (s : Stats) (fs : FS) (a : Asset) (repo : String)
    (now : Nat) (net : GetResult) (r : String) (h : (statsLookup s r).isSome = true) :
    (statsLookup (download_asset s fs a repo now net).stats r).isSome = true := by
  by_cases hr : r = repo
  · subst hr
    exact download_asset_lookup_self s fs a r now net
  · rw [download_asset_lookup_ne s fs a repo now net r hr]
    exact h

/-- A stats entry, once present, survives a whole batch. -/
theorem runBatch_preserves_isSome (s : Stats) (fs : FS) (repo : String) (now : Nat)
    (jobs : List AssetJob) (r : String) (h : (statsLookup s r).isSome = true) :
    (statsLookup (runBatch s fs repo now jobs).1 r).isSome = true := by
  induction jobs generalizing s fs with
  | nil => exact h
  | cons j rest ih =>
      simp only [runBatch]
      exact ih _ _ (download_asset_preserves_isSome _ _ _ _ _ _ _ h)

/-- A non-empty batch creates the repository's stats entry. -/
theorem runBatch_cons_isSome (s : Stats) (fs : FS) (repo : String) (now : Nat)
    (j : AssetJob) (rest : List AssetJob) :
    (statsLookup (runBatch s fs repo now (j :: rest)).1 repo).isSome = true := by
  simp only [runBatch]
  exact runBatch_preserves_isSome _ _ _ _ _ _
    (download_asset_lookup_self s fs j.asset repo now j.net)

/-- A stats entry, once present, survives the whole page loop. -/
theorem processPages_preserves_isSome (s : Stats) (fs : FS) (repo : String) (now : Nat)
    (pjobs : List PageJob) (r : String) (h : (statsLookup s r).isSome = true) :
    (statsLookup (processPages s fs repo now pjobs).1 r).isSome = true := by
  induction pjobs generalizing s fs with
  | nil => exact h
  | cons pj rest ih =>
      simp only [processPages]
      cases ht : isTruthy (get_components repo none pj.fetch).2.1.continuationToken with
      | true =>
          simp only [ht, if_true]
          exact ih _ _ (runBatch_preserves_isSome _ _ _ _ _ _ h)
      | false =>
          simp only [ht, Bool.false_eq_true, if_false]
          exact runBatch_preserves_isSome _ _ _ _ _ _ h

/-- With no stats entry for `repo` at the start, the loop produces one
exactly when it runs at least one asset task. -/
theorem processPages_isSome_iff (s : Stats) (fs : FS) (repo : String) (now : Nat)
    (pjobs : List PageJob) (h : statsLookup s repo = none) :
    ((statsLookup (processPages s fs repo now pjobs).1 repo).isSome = true ↔
      0 < (processPages s fs repo now pjobs).2.2.2) := by
  induction pjobs generalizing s fs with
  | nil => simp [processPages, h]
  | cons pj rest ih =>
      simp only [processPages]
      cases hj : ((download_tasks (get_components repo none pj.fetch).2.1).zip pj.nets).map
          (fun x => AssetJob.mk x.1 x.2) with
      | nil =>
          cases ht : isTruthy (get_components repo none pj.fetch).2.1.continuationToken with
          | true =>
              simp only [hj, ht, if_true, runBatch, List.length_nil, Nat.zero_add]
              exact ih s fs h
          | false =>
              simp only [hj, ht, Bool.false_eq_true, if_false, runBatch, List.length_nil]
              simp [h]
      | cons j js =>
          have h1 := runBatch_cons_isSome s fs repo now j js
          cases ht : isTruthy (get_components repo none pj.fetch).2.1.continuationToken with
          | true =>
              have h2 := processPages_preserves_isSome (runBatch s fs repo now (j :: js)).1
                (runBatch s fs repo now (j :: js)).2.1 repo now rest repo h1
              simp only [hj, ht, if_true]
              rw [h2]
              simp only [List.length_cons, true_iff]
              omega
          | false =>
              simp only [hj, ht, Bool.false_eq_true, if_false]
              rw [h1]
              simp only [List.length_cons, true_iff]
              omega

/-- C8 counterexample: a repository whose single page is empty is fully
drained, yet no stats entry is ever created (entries are created only
inside `download_asset`), so no per-repository summary is printed for it
and the final "Total repositories processed" count (`len(self.stats)`)
does not include it. -/
theorem C8_counterexample_empty_repository :
    (process_repository [] [] "releases" 0
        [PageJob.mk (.resp 200 "" (Page.mk [] none)) []]).summary = none
    ∧ totalReposProcessed (process_repository [] [] "releases" 0
        [PageJob.mk (.resp 200 "" (Page.mk [] none)) []]).stats = 0 := by
  exact ⟨by decide, by decide⟩

/-- C8 (amended): the per-repository summary is printed exactly when the
repository has a stats entry — equivalently, for a repository not seen
before, exactly when at least one asset task ran for it — and it reports
that entry's counters; the final run summary counts the repositories
with stats entries and sums their counters.  On the one-repository,
one-asset end-to-end scenario the summary is `{files := 1, bytes :=
12}`, the processed-repository count is 1 and the run totals are 1 file
and 12 bytes. -/
theorem C8_summary_and_totals :
    (∀ (s : Stats) (fs : FS) (repo : String) (now : Nat) (pjobs : List PageJob),
        statsLookup s repo = none →
        ((process_repository s fs repo now pjobs).summary.isSome = true ↔
          0 < (process_repository s fs repo now pjobs).assetsProcessed))
    ∧ (∀ (s : Stats) (fs : FS) (repo : String) (now : Nat) (pjobs : List PageJob),
        (process_repository s fs repo now pjobs).summary =
          (statsLookup (process_repository s fs repo now pjobs).stats repo).map
            (fun r => ⟨r.downloaded_assets, r.downloaded_size⟩))
    ∧ ((process_repository [] [] "releases" 0
          [PageJob.mk
            (.resp 200 "" (Page.mk [Component.mk [Asset.mk "u" "com/x/1.0/x.jar" (some 12)]] none))
            [.resp 200 (.complete 12)]]).summary = some (RepoSummary.mk 1 12)
      ∧ totalReposProcessed (process_repository [] [] "releases" 0
          [PageJob.mk
            (.resp 200 "" (Page.mk [Component.mk [Asset.mk "u" "com/x/1.0/x.jar" (some 12)]] none))
            [.resp 200 (.complete 12)]]).stats = 1
      ∧ total_files (process_repository [] [] "releases" 0
          [PageJob.mk
            (.resp 200 "" (Page.mk [Component.mk [Asset.mk "u" "com/x/1.0/x.jar" (some 12)]] none))
            [.resp 200 (.complete 12)]]).stats = 1
      ∧ total_size (process_repository [] [] "releases" 0
          [PageJob.mk
            (.resp 200 "" (Page.mk [Component.mk [Asset.mk "u" "com/x/1.0/x.jar" (some 12)]] none))
            [.resp 200 (.complete 12)]]).stats = 12
      ∧ fsLookup (process_repository [] [] "releases" 0
          [PageJob.mk
            (.resp 200 "" (Page.mk [Component.mk [Asset.mk "u" "com/x/1.0/x.jar" (some 12)]] none))
            [.resp 200 (.complete 12)]]).fs
          (fullPath "releases" "com/x/1.0/x.jar") = some 12) := by
  refine ⟨?_, ?_, by decide, by decide, by decide, by decide, by decide⟩
  · intro s fs repo now pjobs h
    unfold process_repository
    have hiff := processPages_isSome_iff s fs repo now pjobs h
    cases hp : statsLookup (processPages s fs repo now pjobs).1 repo with
    | none => simpa [hp] using hiff
    | some e => simpa [hp] using hiff
  · intro s fs repo now pjobs
    unfold process_repository
    cases hp : statsLookup (processPages s fs repo now pjobs).1 repo <;> simp [hp]

theorem writeChunks_keys (s : Stats) (repo : String) (chunks : List Nat) :
    (writeChunks s repo chunks).1.map Prod.fst = s.map Prod.fst := by
  induction chunks generalizing s with
  | nil => rfl
  | cons c rest ih =>
      simp only [writeChunks]
      rw [ih, updateStats_keys]

theorem ensureStats_keys_nodup (s : Stats) (repo : String) (now : Nat)
    (h : (s.map Prod.fst).Nodup) : ((ensureStats s repo now).map Prod.fst).Nodup := by
  unfold ensureStats
  cases hs : statsLookup s repo with
  | some v => exact h
  | none =>
      have hnotin := (statsLookup_eq_none_iff s repo).1 hs
      simp [List.nodup_append, h, hnotin]

theorem download_asset_keys (s : Stats) (fs : FS) (a : Asset) (repo : String)
    (now : Nat) (net : GetResult) :
    (download_asset s fs a repo now net).stats.map Prod.fst =
      (ensureStats s repo now).map Prod.fst := by
  by_cases h : skipExisting fs repo a = true
  · rw [download_asset_skip _ _ _ _ _ _ h]
  · have h' : skipExisting fs repo a = false := by simpa using h
    cases net with
    | resp status body =>
        by_cases hs : status = 200
        · subst hs
          cases body with
          | complete size =>
              rw [download_asset_ok _ _ _ _ _ _ h']
              exact (updateStats_keys
                  (writeChunks (ensureStats s repo now) repo (iter_chunked size)).1 repo
                  (fun r => { r with downloaded_assets := r.downloaded_assets + 1 })).trans
                (writeChunks_keys (ensureStats s repo now) repo (iter_chunked size))
          | interrupted d m =>
              rw [download_asset_interrupted _ _ _ _ _ _ _ h']
              exact writeChunks_keys (ensureStats s repo now) repo d
        · rw [download_asset_badStatus _ _ _ _ _ _ _ h' hs]
    | netError m => rw [download_asset_netError _ _ _ _ _ _ h']

/-- What a `download_asset` call does to an existing stats entry of any
repository: the entry survives, its `start_time` is unchanged, and both
counters only grow. -/
theorem download_asset_entry (s : Stats) (fs : FS) (a : Asset) (repo : String) (now : Nat)
    (net : GetResult) (r : String) (e : RepoStats) (h : statsLookup s r = some e) :
    ∃ e2, statsLookup (download_asset s fs a repo now net).stats r = some e2
      ∧ e2.start_time = e.start_time
      ∧ e.downloaded_assets ≤ e2.downloaded_assets
      ∧ e.downloaded_size ≤ e2.downloaded_size := by
  by_cases hr : r = repo
  · subst hr
    have hens : ensureStats s r now = s := by
      unfold ensureStats
      rw [h]
    by_cases hk : skipExisting fs r a = true
    · rw [download_asset_skip _ _ _ _ _ _ hk, hens]
      exact ⟨e, h, rfl, le_refl _, le_refl _⟩
    · have h' : skipExisting fs r a = false := by simpa using hk
      cases net with
      | resp status body =>
          by_cases hs : status = 200
          · subst hs
            cases body with
            | complete size =>
                have hlook : statsLookup
                    (download_asset s fs a r now (.resp 200 (.complete size))).stats r =
                    some ⟨e.downloaded_assets + 1,
                      e.downloaded_size + (iter_chunked size).sum, e.start_time⟩ := by
                  rw [download_asset_ok _ _ _ _ _ _ h', hens]
                  show statsLookup (updateStats (writeChunks s r (iter_chunked size)).1 r
                      (fun rr => { rr with downloaded_assets := rr.downloaded_assets + 1 })) r = _
                  rw [statsLookup_updateStats_self, writeChunks_lookup_self s r _ e h]
                  rfl
                exact ⟨_, hlook, rfl, Nat.le_add_right _ _, Nat.le_add_right _ _⟩
            | interrupted d m =>
                have hlook : statsLookup
                    (download_asset s fs a r now (.resp 200 (.interrupted d m))).stats r =
                    some ⟨e.downloaded_assets, e.downloaded_size + d.sum, e.start_time⟩ := by
                  rw [download_asset_interrupted _ _ _ _ _ _ _ h', hens]
                  show statsLookup (writeChunks s r d).1 r = _
                  rw [writeChunks_lookup_self s r _ e h]
                exact ⟨_, hlook, rfl, le_refl _, Nat.le_add_right _ _⟩
          · rw [download_asset_badStatus _ _ _ _ _ _ _ h' hs, hens]
            exact ⟨e, h, rfl, le_refl _, le_refl _⟩
      | netError m =>
          rw [download_asset_netError _ _ _ _ _ _ h', hens]
          exact ⟨e, h, rfl, le_refl _, le_refl _⟩
  · rw [download_asset_lookup_ne _ _ _ _ _ _ _ hr]
    exact ⟨e, h, rfl, le_refl _, le_refl _⟩

theorem download_asset_mono (s : Stats) (fs : FS) (a : Asset) (repo : String) (now : Nat)
    (net : GetResult) (r : String) :
    downloadedAssets s r ≤ downloadedAssets (download_asset s fs a repo now net).stats r
    ∧ downloadedBytes s r ≤ downloadedBytes (download_asset s fs a repo now net).stats r := by
  cases h : statsLookup s r with
  | none =>
      unfold downloadedAssets downloadedBytes
      rw [h]
      simp
  | some e =>
      obtain ⟨e2, hl, _, ha, hb⟩ := download_asset_entry s fs a repo now net r e h
      unfold downloadedAssets downloadedBytes
      rw [h, hl]
      exact ⟨ha, hb⟩

theorem runOps_mono (s : Stats) (fs : FS) (now : Nat) (ops : List (String × AssetJob))
    (r : String) :
    downloadedAssets s r ≤ downloadedAssets (runOps s fs now ops).1 r
    ∧ downloadedBytes s r ≤ downloadedBytes (runOps s fs now ops).1 r := by
  induction ops generalizing s fs with
  | nil => exact ⟨le_refl _, le_refl _⟩
  | cons op rest ih =>
      obtain ⟨repo, j⟩ := op
      simp only [runOps]
      have h1 := download_asset_mono s fs j.asset repo now j.net r
      have h2 := ih (download_asset s fs j.asset repo now j.net).stats
        (download_asset s fs j.asset repo now j.net).fs
      exact ⟨le_trans h1.1 h2.1, le_trans h1.2 h2.2⟩

theorem runOps_entry (s : Stats) (fs : FS) (now : Nat) (ops : List (String × AssetJob))
    (r : String) (e : RepoStats) (h : statsLookup s r = some e) :
    ∃ e2, statsLookup (runOps s fs now ops).1 r = some e2
      ∧ e2.start_time = e.start_time
      ∧ e.downloaded_assets ≤ e2.downloaded_assets
      ∧ e.downloaded_size ≤ e2.downloaded_size := by
  induction ops generalizing s fs e with
  | nil => exact ⟨e, h, rfl, le_refl _, le_refl _⟩
  | cons op rest ih =>
      obtain ⟨repo, j⟩ := op
      simp only [runOps]
      obtain ⟨e1, h1, ht1, ha1, hb1⟩ := download_asset_entry s fs j.asset repo now j.net r e h
      obtain ⟨e2, h2, ht2, ha2, hb2⟩ := ih _ _ _ h1
      exact ⟨e2, h2, ht2.trans ht1, le_trans ha1 ha2, le_trans hb1 hb2⟩

theorem runOps_nodup (s : Stats) (fs : FS) (now : Nat) (ops : List (String × AssetJob))
    (h : (s.map Prod.fst).Nodup) : ((runOps s fs now ops).1.map Prod.fst).Nodup := by
  induction ops generalizing s fs with
  | nil => exact h
  | cons op rest ih =>
      obtain ⟨repo, j⟩ := op
      simp only [runOps]
      apply ih
      rw [download_asset_keys]
      exact ensureStats_keys_nodup s repo now h

/-- C9: over any sequence of `download_asset` calls — the only
operations of the run that mutate the stats dict — the counters
`downloaded_assets` and `downloaded_size` of every repository are
monotonically non-decreasing; an existing stats entry is never
re-created (its `start_time` never changes) and the dict's keys stay
unique, so a repository's RepoStats is created at most once, lazily by
the first `download_asset` call that touches the repository, and keyed
by its name. -/
theorem C9_counters_monotone :
    (∀ (s : Stats) (fs : FS) (now : Nat) (ops : List (String × AssetJob)) (r : String),
        downloadedAssets s r ≤ downloadedAssets (runOps s fs now ops).1 r
        ∧ downloadedBytes s r ≤ downloadedBytes (runOps s fs now ops).1 r)
    ∧ (∀ (s : Stats) (fs : FS) (now : Nat) (ops : List (String × AssetJob)) (r : String)
        (e : RepoStats), statsLookup s r = some e →
        ∃ e2, statsLookup (runOps s fs now ops).1 r = some e2
          ∧ e2.start_time = e.start_time
          ∧ e.downloaded_assets ≤ e2.downloaded_assets
          ∧ e.downloaded_size ≤ e2.downloaded_size)
    ∧ (∀ (s : Stats) (fs : FS) (now : Nat) (ops : List (String × AssetJob)),
        (s.map Prod.fst).Nodup → ((runOps s fs now ops).1.map Prod.fst).Nodup)
    ∧ (∀ (s : Stats) (fs : FS) (a : Asset) (repo : String) (now : Nat) (net : GetResult),
        (statsLookup (download_asset s fs a repo now net).stats repo).isSome = true) :=
  ⟨runOps_mono, runOps_entry, runOps_nodup, download_asset_lookup_self⟩

end NexusExport
